import Mathlib

/-!
Shallow embedding of the conagua-data-extractor pipeline
(`src/conagua_datos`), used to check the natural-language specification
against the code.  Python strings are modelled as `String` backed by
`List Char` helpers (so every operation is structurally recursive and
kernel-evaluable); pandas DataFrames are modelled as explicit
header/row lists; fallible code returns `Except`.
-/

/-! ## Character and string helpers (models of Python str methods) -/

/-- Model of `unidecode` restricted to the Spanish-alphabet characters the
pipeline actually meets; every other character is kept unchanged. -/
def uniChar (c : Char) : Char :=
  match c with
  | 'á' => 'a' | 'é' => 'e' | 'í' => 'i' | 'ó' => 'o' | 'ú' => 'u'
  | 'ñ' => 'n' | 'ü' => 'u'
  | 'Á' => 'A' | 'É' => 'E' | 'Í' => 'I' | 'Ó' => 'O' | 'Ú' => 'U'
  | 'Ñ' => 'N' | 'Ü' => 'U'
  | _ => c

/-- `unidecode(s)` on a whole string. -/
def unidecodeStr (s : String) : String :=
  String.mk (s.data.map uniChar)

/-- Model of Python `str.lower` for ASCII plus the accented capitals used by
the data source. -/
def pyLowerChar (c : Char) : Char :=
  if 'A' ≤ c ∧ c ≤ 'Z' then Char.ofNat (c.toNat + 32)
  else
    match c with
    | 'Á' => 'á' | 'É' => 'é' | 'Í' => 'í' | 'Ó' => 'ó' | 'Ú' => 'ú'
    | 'Ñ' => 'ñ' | 'Ü' => 'ü'
    | _ => c

/-- `s.lower()`. -/
def pyLower (s : String) : String :=
  String.mk (s.data.map pyLowerChar)

/-- Whitespace test used by `str.strip()`. -/
def isSpaceChar (c : Char) : Bool :=
  c = ' ' ∨ c = '\t' ∨ c = '\n' ∨ c = '\r'

/-- `s.strip()` on the character list. -/
def trimChars (cs : List Char) : List Char :=
  ((cs.dropWhile isSpaceChar).reverse.dropWhile isSpaceChar).reverse

/-- `s.strip()`. -/
def pyStrip (s : String) : String :=
  String.mk (trimChars s.data)

/-- `s.split(sep)` (Python semantics: splitting the empty string yields one
empty field). -/
def splitOnChar (sep : Char) : List Char → List (List Char)
  | [] => [[]]
  | c :: cs =>
    if c = sep then [] :: splitOnChar sep cs
    else
      match splitOnChar sep cs with
      | [] => [[c]]
      | w :: ws => (c :: w) :: ws

/-- `s.split(sep)` producing strings. -/
def pySplit (sep : Char) (s : String) : List String :=
  (splitOnChar sep s.data).map (fun cs => String.mk cs)

/-- Value of a decimal digit character. -/
def digitVal (c : Char) : Nat := c.toNat - 48

/-- `re.search(r'\d{4}', s)`: the first run of four consecutive decimal
digits in `s`, as a number, mirroring
`int(re.search(r'\d{4}', year).group(0))` in `processor.py`. -/
def firstFourDigits : List Char → Option Nat
  | c1 :: c2 :: c3 :: c4 :: rest =>
    if c1.isDigit && c2.isDigit && c3.isDigit && c4.isDigit then
      some (digitVal c1 * 1000 + digitVal c2 * 100 + digitVal c3 * 10 + digitVal c4)
    else firstFourDigits (c2 :: c3 :: c4 :: rest)
  | _ => none

/-- Year extraction from a file name (`processor.py` line 54). -/
def extractYear (s : String) : Option Nat :=
  firstFourDigits s.data

/-! ## FallbackRetriever: `DownloadCONAGUA.get_latest_valid_pronostic`
(`downloader.py` lines 306-339). -/

/-- One backward month step (`downloader.py` lines 334-337):
`month -= 1; if month < 1: month = 12; year -= 1`. -/
def prevPeriod (p : Int × Int) : Int × Int :=
  if p.2 - 1 < 1 then (p.1 - 1, 12) else (p.1, p.2 - 1)

/-- `max_attempts = 2` (`downloader.py` line 319). -/
def maxAttempts : Nat := 2

/-- The message of the exception raised when the window is exhausted
(`downloader.py` line 339); the literal `2` in the source is the window
size `maxAttempts`. -/
def pronosticFailMsg : String :=
  "No valid pronostic file found in the last " ++ toString maxAttempts ++ " months."

/-- The retry loop of `get_latest_valid_pronostic`, with the network fetch
and archive parse abstracted into the oracle `avail` (`some` = the attempt
succeeds with that data, `none` = any exception).  The `Nat` carried in the
result counts retrieval attempts actually made.  Fuel is the number of
failures still allowed, exactly the loop bound `attempts < max_attempts`. -/
def getLatestValidPronosticAux {α : Type} (avail : Int × Int → Option α) :
    Int × Int → Nat → Nat → Except (String × Nat) (α × Nat)
  | _, 0, made => Except.error (pronosticFailMsg, made)
  | p, Nat.succ r, made =>
    match avail p with
    | some v => Except.ok (v, made + 1)
    | none => getLatestValidPronosticAux avail (prevPeriod p) r (made + 1)

/-- `get_latest_valid_pronostic`, parameterized by the starting period
(the source starts at `datetime.now()`). -/
def get_latest_valid_pronostic {α : Type} (avail : Int × Int → Option α)
    (start : Int × Int) : Except (String × Nat) (α × Nat) :=
  getLatestValidPronosticAux avail start maxAttempts 0

/-! ## ArchiveExtractor: `DownloadCONAGUA._extract_zip_file`
(`downloader.py` lines 142-171).  Entry names are `List Char`. -/

/-- Character-level longest common prefix of two names. -/
def lcp2 : List Char → List Char → List Char
  | a :: as, b :: bs => if a = b then a :: lcp2 as bs else []
  | _, _ => []

/-- `os.path.commonprefix(all_names)`: the longest common string prefix of
all entry names (empty for an empty archive). -/
def commonPfx : List (List Char) → List Char
  | [] => []
  | n :: ns => ns.foldl lcp2 n

/-- `name.endswith('/')`. -/
def endsWithSlash (s : List Char) : Bool :=
  match s.reverse with
  | [] => false
  | c :: _ => c = '/'

/-- `common_prefix.split('/')[0] + '/'`: the text before the first slash,
with a slash appended. -/
def firstComponentSlash (c : List Char) : List Char :=
  c.takeWhile (fun ch => ch ≠ '/') ++ ['/']

/-- The prefix the extractor computes (`downloader.py` lines 151-153):
`commonprefix`, replaced by its first path component plus `'/'` whenever it
is nonempty and does not already end with `'/'`. -/
def computePfx (names : List (List Char)) : List Char :=
  let c := commonPfx names
  if c ≠ [] ∧ ¬ endsWithSlash c then firstComponentSlash c else c

/-- Per-entry stripping (`downloader.py` lines 156-158): the prefix is
removed only when it is nonempty and the member name starts with it. -/
def stripEntry (p n : List Char) : List Char :=
  if p ≠ [] ∧ p.isPrefixOf n then n.drop p.length else n

/-- The list of destination-relative names the extraction writes. -/
def extractNames (names : List (List Char)) : List (List Char) :=
  names.map (stripEntry (computePfx names))

/-- Modelled from the spec: "the longest common string prefix ...
truncated back to the last separator boundary (empty when the common
prefix contains no separator)".  This is the spec's description of the
stripped prefix, kept separate from the source-derived `computePfx` so the
two can be compared. -/
def lastBoundaryPfx (c : List Char) : List Char :=
  (c.reverse.dropWhile (fun ch => ch ≠ '/')).reverse

/-- The stripped prefix as the spec words it. -/
def specStrippedPfx (names : List (List Char)) : List Char :=
  lastBoundaryPfx (commonPfx names)

/-! Filesystem path resolution for the written targets
(`target_path = dest_dir / member_name`, then `open(target_path, "wb")`):
the OS resolves `..` components.  Paths are component lists. -/

/-- OS-level resolution of a relative path against an accumulator:
`..` pops a component, `.` and empty components are skipped. -/
def resolveComponents (acc : List String) : List String → List String
  | [] => acc
  | c :: rest =>
    if c = ".." then resolveComponents acc.dropLast rest
    else if c = "." ∨ c = "" then resolveComponents acc rest
    else resolveComponents (acc ++ [c]) rest

/-- The filesystem path a member is written to: `dest_dir / member_name`
resolved by the OS. -/
def writtenPath (destDir : List String) (memberName : String) : List String :=
  resolveComponents destDir (pySplit '/' memberName)

/-- Whether a resolved path lies under the destination root. -/
def underRoot (root path : List String) : Bool :=
  root.isPrefixOf path

/-! ## ForecastMerger: `month_map` and `DownloadCONAGUA.add_pronostico`
(`downloader.py` lines 19-32 and 173-190). -/

/-- The global month-name → 3-letter-abbreviation table
(`downloader.py` lines 19-32). -/
def month_map : List (String × String) :=
  [("enero", "ene"), ("febrero", "feb"), ("marzo", "mar"), ("abril", "abr"),
   ("mayo", "may"), ("junio", "jun"), ("julio", "jul"), ("agosto", "ago"),
   ("septiembre", "sep"), ("octubre", "oct"), ("noviembre", "nov"),
   ("diciembre", "dic")]

/-- `self.month_map.get(key.split("_")[2])`: the column label chosen for a
forecast key.  `none` models Python's `None` (returned by `dict.get` when
the month name is absent). -/
def keyMonthLabel (key : String) : Option String :=
  List.lookup ((pySplit '_' key).getD 2 "") month_map

/-- A per-year table seen as a list of (column label, column payload)
pairs; the label `none` models a Python `None` column label. -/
def setColumn {α : Type} (t : List (Option String × α)) (lab : Option String)
    (v : α) : List (Option String × α) :=
  if t.any (fun q => q.1 = lab) then
    t.map (fun q => if q.1 = lab then (lab, v) else q)
  else t ++ [(lab, v)]

/-- One iteration of the `add_pronostico` loop (`downloader.py` lines
184-189): `new_info_dict[year_df][key_month] = pronostic_dfs[key][...]`.
The forecast payload is abstract (`α`); the step never raises. -/
def add_pronostico_entry {α : Type} (t : List (Option String × α))
    (key : String) (v : α) : List (Option String × α) :=
  setColumn t (keyMonthLabel key) v

/-! ## Orchestrator guard: `DownloadCONAGUA._get_datatype_config` and the
forecast-merge guard in `download_conagua` (`downloader.py` lines 55-80
and 229-231). -/

/-- Configuration record returned by `_get_datatype_config`. -/
structure DTConfig where
  zipUrl : String
  pdfFolder : String
  defaultFolder : String
  filename : String
deriving DecidableEq, Repr

/-- `_get_datatype_config` (`downloader.py` lines 55-80); the two URLs come
from the loaded config file and are passed in. `none` models the
`ValueError` branch. -/
def get_datatype_config (rainUrl tempUrl dataType : String) : Option DTConfig :=
  let dt := pyLower dataType
  if dt = "precipitacion" ∨ dt = "rain" ∨ dt = "lluvia" then
    some ⟨rainUrl, "PREC", "Precipitacion", "Precip.xlsx"⟩
  else if dt = "temperatura" ∨ dt = "temp" ∨ dt = "temperature" then
    some ⟨tempUrl, "TMED", "Temperatura", "Tmed.xlsx"⟩
  else none

/-- The data path of `download_conagua` for the per-year tables
(`downloader.py` lines 207-233): the tables (abstract `α`) pass through
`add_pronostico` (abstracted as `addPron`) exactly when
`include_pronostico and (default_folder == "Precipitacion")`, and are then
saved unchanged. -/
def download_conagua {α : Type} (addPron : α → α)
    (rainUrl tempUrl dataType : String) (includePronostico : Bool)
    (newInfo : α) : Except String α :=
  match get_datatype_config rainUrl tempUrl dataType with
  | none => Except.error ("Invalid data type: " ++ dataType)
  | some cfg =>
    Except.ok
      (if includePronostico ∧ cfg.defaultFolder = "Precipitacion" then
        addPron newInfo
      else newInfo)

/-! ## SchemaNormalizer: `DataProcessor._clean_data`, `_make_info_lower`,
`_make_cols_lower`, `process_data` (`processor.py` lines 36-136). -/

/-- Column label after the month mapping: a string, a month number, or
`NaN` (pandas gives `NaN` to labels missing from the `.map` table). -/
inductive ColLabel where
  | str : String → ColLabel
  | num : Nat → ColLabel
  | nan : ColLabel
deriving DecidableEq, Repr

/-- A wide per-year table as read from disk: string column labels and rows
of text cells. -/
structure RawDF where
  header : List String
  rows : List (List String)
deriving DecidableEq, Repr

/-- A table after its header has gone through the month mapping. -/
structure MappedDF where
  header : List ColLabel
  rows : List (List String)
deriving DecidableEq, Repr

/-- One row of the canonical long-form output: the first-of-month date key
(year, month), the `month` and `year` descriptor columns, and the region
value columns as (canonical region name, cell) pairs. -/
structure CanonRow where
  date : Nat × Nat
  month : Nat
  year : Nat
  vals : List (String × String)
deriving DecidableEq, Repr

/-- Modelled from the spec: the national-totals sentinel strings supplied
by ConfigSource (`config.json` is not part of the sources); the values
follow §4.4 of the spec and the literals left in comments in
`processor.py` lines 40-47, lowercased as the membership test at lines
60-64 requires. -/
def edge_case_rain : String :=
  "precipitación a nivel nacional y por entidad federativa"

/-- Modelled from the spec: temperature sentinel, as for `edge_case_rain`. -/
def edge_case_temp : String :=
  "temperatura media promedio a nivel nacional y por entidad federativa"

/-- `columns.str.lower().str.strip()` (`processor.py` line 53). -/
def lowerStripCol (s : String) : String :=
  pyStrip (pyLower s)

/-- `_make_cols_lower` per label: `unidecode(str(col).strip().lower())`. -/
def colCanon (s : String) : String :=
  unidecodeStr (pyLower (pyStrip s))

/-- `_make_info_lower` per cell:
`.apply(str).apply(unidecode).str.strip().str.lower()`. -/
def infoCanon (s : String) : String :=
  pyLower (pyStrip (unidecodeStr s))

/-- The header banner edge case (`processor.py` lines 60-71): when a
sentinel appears among the lowered column labels, row 0 becomes the
header (with `"ENTIDAD"` renamed to `"estado"`) and is removed from the
data.  `iloc[0]` of an empty frame raises. -/
def promoteIfSentinel (sentR sentT : String) (t : RawDF) : Except String RawDF :=
  if sentR ∈ t.header.map lowerStripCol ∨ sentT ∈ t.header.map lowerStripCol then
    match t.rows with
    | [] => Except.error "IndexError: iloc[0] of empty frame"
    | r0 :: rest =>
      Except.ok ⟨r0.map (fun c => if c = "ENTIDAD" then "estado" else c), rest⟩
  else Except.ok t

/-- The `.map` table applied to column labels (`processor.py` lines 77-85);
labels absent from the table become `NaN`. -/
def mapLabel (s : String) : ColLabel :=
  if s = "estado" then ColLabel.str "estado"
  else if s = "anual" then ColLabel.str "anual"
  else if s = "ene" then ColLabel.num 1
  else if s = "feb" then ColLabel.num 2
  else if s = "mar" then ColLabel.num 3
  else if s = "abr" then ColLabel.num 4
  else if s = "may" then ColLabel.num 5
  else if s = "jun" then ColLabel.num 6
  else if s = "jul" then ColLabel.num 7
  else if s = "ago" then ColLabel.num 8
  else if s = "sep" then ColLabel.num 9
  else if s = "oct" then ColLabel.num 10
  else if s = "nov" then ColLabel.num 11
  else if s = "dic" then ColLabel.num 12
  else ColLabel.nan

/-- `drop(columns=["anual"])` (`processor.py` line 86): removes every
column labelled `anual`; raises `KeyError` when there is none. -/
def dropAnual (t : MappedDF) : Except String MappedDF :=
  if ColLabel.str "anual" ∈ t.header then
    Except.ok
      ⟨t.header.filter (fun l => l ≠ ColLabel.str "anual"),
       t.rows.map (fun r =>
         ((t.header.zip r).filter (fun q => q.1 ≠ ColLabel.str "anual")).map
           Prod.snd)⟩
  else Except.error "KeyError: anual"

/-- The transposed month rows (`processor.py` lines 90-99).  After the
transpose, `.columns = iloc[0]` takes the values of the first remaining
column as the new column names; the other original columns become rows,
their labels become the `month` column, and `pd.to_datetime` requires each
month to be an integer in 1..12.  `j` indexes the original column a
transposed row came from. -/
def buildRows (year : Nat) (regionCols : List String)
    (rows : List (List String)) : Nat → List ColLabel → Except String (List CanonRow)
  | _, [] => Except.ok []
  | j, lab :: rest =>
    match lab with
    | ColLabel.num m =>
      if 1 ≤ m ∧ m ≤ 12 then
        match buildRows year regionCols rows (j + 1) rest with
        | Except.ok tl =>
          Except.ok
            (⟨(year, m), m, year,
              regionCols.zip (rows.map (fun r => r.getD (j + 1) ""))⟩ :: tl)
        | Except.error e => Except.error e
      else Except.error "to_datetime: month out of range"
    | _ => Except.error "to_datetime: non-numeric month"

/-- The transpose step entry point: the first column supplies the region
column names, the remaining columns become dated rows. -/
def transposeBlock (year : Nat) (t : MappedDF) : Except String (List CanonRow) :=
  match t.header with
  | [] => Except.error "IndexError: transpose of empty header"
  | _ :: restCols =>
    buildRows year (t.rows.map (fun r => r.getD 0 "")) t.rows 0 restCols

/-- The per-year body of `_clean_data` (`processor.py` lines 52-99) applied
to one file of the directory dictionary. -/
def cleanTable (sentR sentT fname : String) (t : RawDF) :
    Except String (List CanonRow) :=
  match extractYear fname with
  | none => Except.error "AttributeError: no 4-digit year in file name"
  | some year =>
    match promoteIfSentinel sentR sentT t with
    | Except.error e => Except.error e
    | Except.ok t1 =>
      let t2 : RawDF := ⟨t1.header.map colCanon, t1.rows⟩
      match t2.header.findIdx? (fun c => c = "estado") with
      | none => Except.error "KeyError: estado"
      | some i =>
        let t3 : RawDF :=
          ⟨t2.header, t2.rows.map (fun r => r.set i (infoCanon (r.getD i "")))⟩
        let t4 : MappedDF := ⟨t3.header.map mapLabel, t3.rows⟩
        match dropAnual t4 with
        | Except.error e => Except.error e
        | Except.ok t5 =>
          match t5.header.findIdx? (fun c => c = ColLabel.str "estado") with
          | none => Except.error "KeyError: estado"
          | some k =>
            let t6 : MappedDF :=
              ⟨t5.header, t5.rows.filter (fun r => r.getD k "" ≠ "nacional")⟩
            transposeBlock year t6

/-- `_clean_data` over the whole directory dictionary, in file order, up to
the concatenation. -/
def processFiles (sentR sentT : String) :
    List (String × RawDF) → Except String (List (List CanonRow))
  | [] => Except.ok []
  | f :: fs =>
    match cleanTable sentR sentT f.1 f.2 with
    | Except.error e => Except.error e
    | Except.ok b =>
      match processFiles sentR sentT fs with
      | Except.error e => Except.error e
      | Except.ok bs => Except.ok (b :: bs)

/-- Ascending order on first-of-month date keys. -/
def dateLE (a b : Nat × Nat) : Bool :=
  a.1 < b.1 ∨ (a.1 = b.1 ∧ a.2 ≤ b.2)

/-- Insertion step of the date sort. -/
def insertByDate (r : CanonRow) : List CanonRow → List CanonRow
  | [] => [r]
  | x :: xs => if dateLE r.date x.date then r :: x :: xs else x :: insertByDate r xs

/-- `.sort_index()` on the concatenated frame (`processor.py` line 131),
modelled as an insertion sort by date ascending. -/
def sortByDate : List CanonRow → List CanonRow
  | [] => []
  | x :: xs => insertByDate x (sortByDate xs)

/-- `process_data` (`processor.py` lines 119-136) on the directory
contents (file name, table) in listing order, with the `order_cols=False`
branch (the configured column reorder does not change rows or dates). -/
def process_data (sentR sentT : String) (files : List (String × RawDF)) :
    Except String (List CanonRow) :=
  match processFiles sentR sentT files with
  | Except.error e => Except.error e
  | Except.ok blocks => Except.ok (sortByDate blocks.flatten)

/-! ## `filtrar_datos` (`filter_data.py` lines 4-35). -/

/-- An index cell: either raw text or an already-parsed timestamp
(year, month, day). -/
inductive IdxVal where
  | str : String → IdxVal
  | date : Nat × Nat × Nat → IdxVal
deriving DecidableEq, Repr

/-- A date-indexed frame: index cells plus one opaque payload per row. -/
structure ClimFrame where
  index : List IdxVal
  rows : List String
deriving DecidableEq, Repr

/-- `pd.to_datetime` on an ISO `"YYYY-mm-dd"` string (the format the
docstring of `filtrar_datos` requires); anything else raises. -/
def parseDateStr (s : String) : Except String (Nat × Nat × Nat) :=
  match (splitOnChar '-' s.data).map (fun cs =>
      if cs ≠ [] ∧ cs.all Char.isDigit then
        some (cs.foldl (fun acc c => 10 * acc + digitVal c) 0)
      else none) with
  | [some y, some m, some d] =>
    if 1 ≤ m ∧ m ≤ 12 ∧ 1 ≤ d ∧ d ≤ 31 then Except.ok (y, m, d)
    else Except.error "to_datetime: out of range"
  | _ => Except.error "to_datetime: unparseable"

/-- `pd.to_datetime` on one index cell. -/
def toDatetimeIdx (v : IdxVal) : Except String (Nat × Nat × Nat) :=
  match v with
  | IdxVal.date d => Except.ok d
  | IdxVal.str s => parseDateStr s

/-- `isinstance(clima_df.index, pd.DatetimeIndex)`: every cell already a
timestamp. -/
def isDatetimeIndex (idx : List IdxVal) : Bool :=
  idx.all (fun v => match v with | IdxVal.date _ => true | IdxVal.str _ => false)

/-- Lexicographic order on timestamps. -/
def tsLE (a b : Nat × Nat × Nat) : Bool :=
  a.1 < b.1 ∨ (a.1 = b.1 ∧ (a.2.1 < b.2.1 ∨ (a.2.1 = b.2.1 ∧ a.2.2 ≤ b.2.2)))

/-- `clima_df.index >= start_date` for one cell (post-coercion every cell
is a timestamp; a leftover string compares false). -/
def idxGE (v : IdxVal) (d : Nat × Nat × Nat) : Bool :=
  match v with
  | IdxVal.date x => tsLE d x
  | IdxVal.str _ => false

/-- `clima_df.index <= end_date` for one cell. -/
def idxLE (v : IdxVal) (d : Nat × Nat × Nat) : Bool :=
  match v with
  | IdxVal.date x => tsLE x d
  | IdxVal.str _ => false

/-- `clima_df.loc[mask]`: keep the index/row pairs passing the mask. -/
def sliceFrame (f : ClimFrame) (p : IdxVal → Bool) : ClimFrame :=
  let kept := (f.index.zip f.rows).filter (fun q => p q.1)
  ⟨kept.map Prod.fst, kept.map Prod.snd⟩

/-- Truthiness-aware conversion of a date argument (`if start_date:` is
false for `None` and for `""`). -/
def convertDateArg (o : Option String) : Except String (Option (Nat × Nat × Nat)) :=
  match o with
  | none => Except.ok none
  | some s =>
    if s = "" then Except.ok none
    else
      match parseDateStr s with
      | Except.ok d => Except.ok (some d)
      | Except.error e => Except.error e

/-- `filtrar_datos` (`filter_data.py` lines 4-35): copy the input, coerce
the copy's index to datetime when it is not one already, convert the
provided bounds, then return the matching slice (or the copy itself when
no bound is given). -/
def filtrar_datos (df : ClimFrame) (start_date end_date : Option String) :
    Except String ClimFrame :=
  match
    (if isDatetimeIndex df.index then Except.ok df.index
     else
       match df.index.mapM toDatetimeIdx with
       | Except.ok ds => Except.ok (ds.map IdxVal.date)
       | Except.error e => Except.error e) with
  | Except.error e => Except.error e
  | Except.ok idx =>
    let clima : ClimFrame := ⟨idx, df.rows⟩
    match convertDateArg start_date with
    | Except.error e => Except.error e
    | Except.ok sd =>
      match convertDateArg end_date with
      | Except.error e => Except.error e
      | Except.ok ed =>
        match sd, ed with
        | some s, some e => Except.ok (sliceFrame clima (fun v => idxGE v s && idxLE v e))
        | some s, none => Except.ok (sliceFrame clima (fun v => idxGE v s))
        | none, some e => Except.ok (sliceFrame clima (fun v => idxLE v e))
        | none, none => Except.ok clima

/-! ## Concrete data used by the claims -/

deriving instance DecidableEq for Except

/-- Archive entries whose common string prefix `top/sub/x` does not end at
a separator. -/
def cexNames : List (List Char) := ["top/sub/x1.txt".data, "top/sub/x2.txt".data]

/-- Archive entries whose common string prefix `data` is merely a shared
name substring, yet literally a directory of one entry. -/
def mixedNames : List (List Char) := ["data/a.csv".data, "database.csv".data]

/-- A small per-year table before a forecast merge. -/
def c3Table : List (Option String × Nat) := [(some "estado", 0), (some "ene", 1)]

/-- Retrieval oracle with the resource present only at (2024, 12). -/
def availW : Int × Int → Option Nat := fun p => if p = (2024, 12) then some 7 else none

/-- Retrieval oracle with the resource absent everywhere. -/
def availN : Int × Int → Option Nat := fun _ => none

/-- The standard RawYearTable header: region column, the twelve month
abbreviations, annual total. -/
def stdHeader : List String :=
  ["estado", "ene", "feb", "mar", "abr", "may", "jun", "jul", "ago", "sep",
   "oct", "nov", "dic", "anual"]

/-- A single-year table with regions Sonora and Nacional. -/
def ex2023 : RawDF :=
  ⟨stdHeader,
   [["Sonora", "1", "2", "3", "4", "5", "6", "7", "8", "9", "10", "11", "12", "78"],
    ["Nacional", "9", "9", "9", "9", "9", "9", "9", "9", "9", "9", "9", "9", "99"]]⟩

/-- The canonical series `ex2023` normalizes to. -/
def c7Expected : List CanonRow :=
  (List.range 12).map (fun j => ⟨(2023, j + 1), j + 1, 2023, [("sonora", toString (j + 1))]⟩)

/-- A frame whose index holds date text, not timestamps. -/
def c10df : ClimFrame := ⟨[IdxVal.str "2024-01-01"], ["x"]⟩

/-- The same frame with its index already parsed. -/
def c10dtdf : ClimFrame := ⟨[IdxVal.date (2024, 1, 1)], ["x"]⟩

/-! ## Helper lemmas -/

theorem stripEntry_nil (n : List Char) : stripEntry [] n = n := by
  unfold stripEntry
  rw [if_neg]
  intro hc
  exact hc.1 rfl

theorem slash_mem_computePfx (names : List (List Char))
    (h : commonPfx names ≠ []) : '/' ∈ computePfx names := by
  unfold computePfx
  by_cases hc : commonPfx names ≠ [] ∧ ¬ endsWithSlash (commonPfx names)
  · rw [if_pos hc]
    unfold firstComponentSlash
    exact List.mem_append_right _ (List.mem_singleton.2 rfl)
  · rw [if_neg hc]
    have hend : endsWithSlash (commonPfx names) = true := by
      by_contra hne
      exact hc ⟨h, fun hcontra => hne hcontra⟩
    unfold endsWithSlash at hend
    rcases hrev : (commonPfx names).reverse with _ | ⟨c, cs⟩
    · rw [hrev] at hend
      simp at hend
    · rw [hrev] at hend
      simp only [decide_eq_true_eq] at hend
      have : '/' ∈ (commonPfx names).reverse := by
        rw [hrev, ← hend]
        exact List.mem_cons_self c cs
      exact List.mem_reverse.1 this

theorem stripEntry_eq_of_not_mem (p n : List Char)
    (hp : '/' ∈ p) (hn : '/' ∉ n) : stripEntry p n = n := by
  unfold stripEntry
  rw [if_neg]
  intro hc
  have hpre : p <+: n := List.isPrefixOf_iff_prefix.1 hc.2
  exact hn (hpre.subset hp)

theorem insertByDate_perm (r : CanonRow) (l : List CanonRow) :
    List.Perm (insertByDate r l) (r :: l) := by
  induction l with
  | nil => exact List.Perm.refl _
  | cons x xs ih =>
    unfold insertByDate
    by_cases hd : dateLE r.date x.date = true
    · rw [if_pos hd]
    · rw [if_neg hd]
      exact List.Perm.trans (List.Perm.cons x ih) (List.Perm.swap r x xs)

theorem sortByDate_perm (l : List CanonRow) : List.Perm (sortByDate l) l := by
  induction l with
  | nil => exact List.Perm.refl _
  | cons x xs ih =>
    exact List.Perm.trans (insertByDate_perm x (sortByDate xs)) (List.Perm.cons x ih)

/-! ## Claim theorems -/

/-- C1, counterexample: for the archive with entries `top/sub/x1.txt` and
`top/sub/x2.txt` the code strips `top/` (the first path component of the
common string prefix), not `top/sub/` (the common prefix truncated back
to the last separator boundary) as the claim states, and the extracted
names differ from what the claim predicts; and for the archive with
entries `data/a.csv` and `database.csv` the claim predicts no stripping
(the common prefix `data` contains no separator) yet the code strips
`data/` from the first entry. -/
theorem claim_C1_counterexample :
    computePfx cexNames ≠ specStrippedPfx cexNames ∧
    extractNames cexNames ≠ cexNames.map (stripEntry (specStrippedPfx cexNames)) ∧
    specStrippedPfx mixedNames = [] ∧
    extractNames mixedNames ≠ mixedNames := by decide

/-- C1, amended: the prefix the extractor strips is the longest common
string prefix itself when that prefix already ends with a separator
(where it agrees with the spec's last-boundary rule), and otherwise its
first path component with a separator appended; it is stripped only from
entries that begin with it and other entries are unchanged; an archive
whose entries have an empty common prefix extracts with every entry path
unchanged, and an archive none of whose entry names contains a separator
extracts unchanged. -/
theorem claim_C1_amended (names : List (List Char)) :
    (commonPfx names = [] → extractNames names = names) ∧
    ((∀ n ∈ names, '/' ∉ n) → extractNames names = names) ∧
    (∀ n ∈ names, stripEntry (computePfx names) n = n ∨
      computePfx names ++ stripEntry (computePfx names) n = n) ∧
    (endsWithSlash (commonPfx names) = true →
      computePfx names = specStrippedPfx names) := by
  refine ⟨?_, ?_, ?_, ?_⟩
  · intro h
    have hp : computePfx names = [] := by
      unfold computePfx
      rw [h, if_neg]
      intro hc
      exact hc.1 rfl
    unfold extractNames
    rw [hp]
    calc names.map (stripEntry []) = names.map id := by
          exact List.map_congr_left (fun n _ => stripEntry_nil n)
      _ = names := List.map_id names
  · intro hno
    by_cases h : commonPfx names = []
    · have hp : computePfx names = [] := by
        unfold computePfx
        rw [h, if_neg]
        intro hc
        exact hc.1 rfl
      unfold extractNames
      rw [hp]
      calc names.map (stripEntry []) = names.map id := by
            exact List.map_congr_left (fun n _ => stripEntry_nil n)
        _ = names := List.map_id names
    · have hs := slash_mem_computePfx names h
      unfold extractNames
      calc names.map (stripEntry (computePfx names)) = names.map id := by
            exact List.map_congr_left
              (fun n hn => stripEntry_eq_of_not_mem _ n hs (hno n hn))
        _ = names := List.map_id names
  · intro n _
    by_cases hc : computePfx names ≠ [] ∧ (computePfx names).isPrefixOf n
    · right
      have hpre : computePfx names <+: n := List.isPrefixOf_iff_prefix.1 hc.2
      obtain ⟨t, ht⟩ := hpre
      have hstrip : stripEntry (computePfx names) n = t := by
        unfold stripEntry
        rw [if_pos hc, ← ht, List.drop_left]
      rw [hstrip, ht]
    · left
      unfold stripEntry
      rw [if_neg hc]
  · intro hend
    have hne : commonPfx names ≠ [] := by
      intro hnil
      unfold endsWithSlash at hend
      rw [hnil] at hend
      simp at hend
    have hp : computePfx names = commonPfx names := by
      unfold computePfx
      rw [if_neg]
      intro hc
      exact hc.2 hend
    rw [hp]
    unfold specStrippedPfx lastBoundaryPfx
    unfold endsWithSlash at hend
    rcases hrev : (commonPfx names).reverse with _ | ⟨c, cs⟩
    · rw [hrev] at hend
      simp at hend
    · rw [hrev] at hend
      simp only [decide_eq_true_eq] at hend
      subst hend
      rw [List.dropWhile_cons_of_neg (by simp), ← hrev, List.reverse_reverse]

/-- C1, witness for the amended theorem at a flat archive with no
separators in any entry name. -/
theorem claim_C1_witness :
    extractNames [['a'], ['b', 'c']] = [['a'], ['b', 'c']] :=
  (claim_C1_amended [['a'], ['b', 'c']]).2.1 (by decide)

/-- C2: the extraction has no path-traversal guard.  For the archive with
entries `../evil.txt` and `good.txt` (empty common prefix, so nothing is
stripped), the member `../evil.txt` is written to `dest/../evil.txt`,
which the OS resolves to `evil.txt` outside the destination root —
contradicting the claimed invariant that every written path resolves
under the destination root. -/
theorem claim_C2_traversal :
    extractNames ["../evil.txt".data, "good.txt".data]
      = ["../evil.txt".data, "good.txt".data] ∧
    writtenPath ["dest"] "../evil.txt" = ["evil.txt"] ∧
    underRoot ["dest"] (writtenPath ["dest"] "../evil.txt") = false := by decide

/-- C3: for the forecast key `lluvia_2025_foo`, whose month-name component
`foo` is not in `month_map`, `dict.get` yields `None` and the merge step
succeeds anyway, writing the forecast payload under a column labelled
`None` — it neither fails with an error nor skips the entry, contradicting
the claim that the merge must fail for that entry. -/
theorem claim_C3_unmapped_month :
    keyMonthLabel "lluvia_2025_foo" = none ∧
    add_pronostico_entry c3Table "lluvia_2025_foo" 7
      = [(some "estado", 0), (some "ene", 1), (none, 7)] := by decide

/-- C4: starting at (2025, 1) with window `maxAttempts = 2`: when the
resource is absent at (2025, 1) and present at (2024, 12), the loop
returns that result after exactly 2 attempts; when it is absent at both,
the loop makes exactly 2 attempts and fails with the message that names
the window size. -/
theorem claim_C4_window {α : Type} (avail : Int × Int → Option α)
    (h1 : avail (2025, 1) = none) :
    (∀ v : α, avail (2024, 12) = some v →
      get_latest_valid_pronostic avail (2025, 1) = Except.ok (v, 2)) ∧
    (avail (2024, 12) = none →
      get_latest_valid_pronostic avail (2025, 1)
        = Except.error (pronosticFailMsg, 2)) := by
  have hstep : ∀ (p : Int × Int) (r made : Nat), avail p = none →
      getLatestValidPronosticAux avail p (Nat.succ r) made
        = getLatestValidPronosticAux avail (prevPeriod p) r (made + 1) := by
    intro p r made h
    simp [getLatestValidPronosticAux, h]
  have hok : ∀ (p : Int × Int) (r made : Nat) (v : α), avail p = some v →
      getLatestValidPronosticAux avail p (Nat.succ r) made
        = Except.ok (v, made + 1) := by
    intro p r made v h
    simp [getLatestValidPronosticAux, h]
  have hstart : get_latest_valid_pronostic avail (2025, 1)
      = getLatestValidPronosticAux avail (2025, 1) (Nat.succ (Nat.succ 0)) 0 := rfl
  have hprev : prevPeriod (2025, 1) = (2024, 12) := by decide
  constructor
  · intro v hv
    rw [hstart, hstep (2025, 1) (Nat.succ 0) 0 h1, hprev,
      hok (2024, 12) 0 1 v hv]
  · intro h2
    rw [hstart, hstep (2025, 1) (Nat.succ 0) 0 h1, hprev,
      hstep (2024, 12) 0 1 h2]
    rfl

/-- C4, witness: a retrieval oracle with the resource only at (2024, 12)
and one with no resource at all. -/
theorem claim_C4_witness :
    get_latest_valid_pronostic availW (2025, 1) = Except.ok (7, 2) ∧
    get_latest_valid_pronostic availN (2025, 1)
      = Except.error (pronosticFailMsg, 2) :=
  ⟨(claim_C4_window availW (by decide)).1 7 (by decide),
   (claim_C4_window availN (by decide)).2 (by decide)⟩

/-- C5: one backward step from (year, month) with 1 ≤ month ≤ 12 yields
(year, month-1) when month > 1 and (year-1, 12) when month = 1, and the
step always moves strictly backward in months-since-epoch. -/
theorem claim_C5_month_wrap (y m : Int) (h1 : 1 ≤ m) (h2 : m ≤ 12) :
    (1 < m → prevPeriod (y, m) = (y, m - 1)) ∧
    (m = 1 → prevPeriod (y, m) = (y - 1, 12)) ∧
    12 * (prevPeriod (y, m)).1 + (prevPeriod (y, m)).2 < 12 * y + m := by
  have hif : prevPeriod (y, m) = if m - 1 < 1 then (y - 1, 12) else (y, m - 1) := rfl
  by_cases hm : m - 1 < 1
  · have hm1 : m = 1 := by omega
    subst hm1
    rw [hif, if_pos hm]
    refine ⟨fun h => absurd h (by omega), fun _ => rfl, ?_⟩
    show 12 * (y - 1) + 12 < 12 * y + 1
    omega
  · rw [hif, if_neg hm]
    refine ⟨fun _ => rfl, fun h => absurd h (by omega), ?_⟩
    show 12 * y + (m - 1) < 12 * y + m
    omega

/-- C5, witness: the wrap at (2025, 1). -/
theorem claim_C5_witness : prevPeriod (2025, 1) = (2024, 12) :=
  (claim_C5_month_wrap 2025 1 (by norm_num) (by norm_num)).2.1 rfl

/-- C7: normalizing the single-year table `ex2023` (regions Sonora and
Nacional, columns estado, ene..dic, anual) drops the Nacional row and the
anual column and produces exactly 12 date-indexed rows, one per month of
2023, with a single region value column named "sonora". -/
theorem claim_C7_single_year :
    process_data edge_case_rain edge_case_temp [("2023Precip.xlsx", ex2023)]
      = Except.ok c7Expected ∧
    c7Expected.length = 12 ∧
    (c7Expected.map fun r => r.vals.map Prod.fst) = List.replicate 12 ["sonora"] ∧
    (c7Expected.map fun r => r.date) = (List.range 12).map (fun j => (2023, j + 1)) := by
  decide

/-- C8: for every temperature data kind (any casing of "temperatura",
"temp" or "temperature"), `download_conagua` never runs the forecast
merge: the saved per-year tables are exactly the input tables, whatever
the merge function and the `include_pronostico` flag are. -/
theorem claim_C8_temp_no_forecast {α : Type} (addPron : α → α)
    (rainUrl tempUrl dataType : String) (inc : Bool) (x : α)
    (h : pyLower dataType = "temperatura" ∨ pyLower dataType = "temp" ∨
      pyLower dataType = "temperature") :
    download_conagua addPron rainUrl tempUrl dataType inc x = Except.ok x := by
  unfold download_conagua get_datatype_config
  rcases h with h | h | h <;>
    rw [h] <;>
    rw [if_neg (by decide), if_pos (by decide)] <;>
    exact congrArg Except.ok (if_neg (fun hc => by simp at hc))

/-- C8, witness: the kind "TEMP" with the merge forced on. -/
theorem claim_C8_witness :
    download_conagua Nat.succ "r" "t" "TEMP" true 5 = Except.ok 5 :=
  claim_C8_temp_no_forecast Nat.succ "r" "t" "TEMP" true 5 (by decide)

/-- C9: `process_data` is deterministic over directory contents: two runs
on directories with identical file lists and file contents return
identical canonical series (the embedding carries no hidden state, so the
result is a function of the directory contents alone). -/
theorem claim_C9_deterministic (sentR sentT : String)
    (files1 files2 : List (String × RawDF)) (h : files1 = files2) :
    process_data sentR sentT files1 = process_data sentR sentT files2 := by
  rw [h]

/-- C9, witness: two runs on the same one-file directory. -/
theorem claim_C9_witness :
    process_data edge_case_rain edge_case_temp [("2023Precip.xlsx", ex2023)]
      = process_data edge_case_rain edge_case_temp [("2023Precip.xlsx", ex2023)] :=
  claim_C9_deterministic edge_case_rain edge_case_temp _ _ rfl

/-- C10, counterexample: on a frame whose index holds the text
"2024-01-01", `filtrar_datos` with neither bound returns a frame whose
index was coerced to a timestamp — not a frame equal to the input, as the
claim states. -/
theorem claim_C10_counterexample :
    filtrar_datos c10df none none ≠ Except.ok c10df ∧
    filtrar_datos c10df none none = Except.ok c10dtdf := by decide

/-- C10, amended: `filtrar_datos` operates on a copy and never modifies
its input; with neither a start nor an end date it returns the input with
its index coerced to datetime, which equals the input exactly when the
input's index is already a DatetimeIndex. -/
theorem claim_C10_amended (df : ClimFrame)
    (h : isDatetimeIndex df.index = true) :
    filtrar_datos df none none = Except.ok df := by
  unfold filtrar_datos
  rw [if_pos h]
  rfl

/-- C10, witness: a frame whose index is already datetime. -/
theorem claim_C10_witness : filtrar_datos c10dtdf none none = Except.ok c10dtdf :=
  claim_C10_amended c10dtdf (by decide)

/-- `cleanTable` on any table with the standard RawYearTable header: it
succeeds whatever the rows are, and the dates of its output are the
twelve months of the file's year. -/
theorem cleanTable_std (fname : String) (t : RawDF) (y : Nat)
    (hh : t.header = stdHeader) (hy : extractYear fname = some y) :
    ∃ rs, cleanTable edge_case_rain edge_case_temp fname t = Except.ok rs ∧
      rs.map (fun r => r.date) = (List.range 12).map (fun j => (y, j + 1)) := by
  obtain ⟨hd, rows⟩ := t
  have hh2 : hd = stdHeader := hh
  subst hh2
  unfold cleanTable
  rw [hy]
  exact ⟨_, rfl, rfl⟩

/-- `processFiles` over standard-shaped tables: the concatenated dates
are the per-file twelve-month blocks in file order. -/
theorem processFiles_std (files : List (String × RawDF))
    (hshape : ∀ p ∈ files, (p.2).header = stdHeader)
    (hsome : ∀ p ∈ files, (extractYear p.1).isSome) :
    ∃ bs, processFiles edge_case_rain edge_case_temp files = Except.ok bs ∧
      bs.flatten.map (fun r => r.date)
        = ((files.map (fun p => (extractYear p.1).getD 0)).map
            (fun y => (List.range 12).map (fun j => ((y, j + 1) : Nat × Nat)))).flatten := by
  induction files with
  | nil => exact ⟨[], rfl, rfl⟩
  | cons f fs ih =>
    have hf : f.2.header = stdHeader := hshape f (List.mem_cons_self f fs)
    obtain ⟨y, hy⟩ := Option.isSome_iff_exists.1 (hsome f (List.mem_cons_self f fs))
    obtain ⟨rs, hcl, hdates⟩ := cleanTable_std f.1 f.2 y hf hy
    obtain ⟨bs, hpf, hflat⟩ := ih (fun p hp => hshape p (List.mem_cons_of_mem f hp))
      (fun p hp => hsome p (List.mem_cons_of_mem f hp))
    refine ⟨rs :: bs, ?_, ?_⟩
    · unfold processFiles
      rw [hcl, hpf]
    · simp only [List.map_cons, List.flatten_cons, List.map_append, hy,
        Option.getD_some]
      rw [hdates, hflat]

/-- Blocks of twelve per-year month dates concatenated over distinct
years carry no duplicate date. -/
theorem datesNodup (ys : List Nat) (h : ys.Nodup) :
    ((ys.map (fun y => (List.range 12).map
      (fun j => ((y, j + 1) : Nat × Nat)))).flatten).Nodup := by
  induction ys with
  | nil => simp
  | cons y ys ih =>
    simp only [List.map_cons, List.flatten_cons]
    rw [List.nodup_append]
    obtain ⟨hy, hys⟩ := List.nodup_cons.1 h
    refine ⟨?_, ih hys, ?_⟩
    · refine List.Nodup.map ?_ (List.nodup_range 12)
      intro a b hab
      simpa using congrArg Prod.snd hab
    · intro d hd1 hd2
      simp only [List.mem_map] at hd1
      obtain ⟨j, _, rfl⟩ := hd1
      simp only [List.mem_flatten, List.mem_map] at hd2
      obtain ⟨l, ⟨y2, hy2, rfl⟩, hdl⟩ := hd2
      simp only [List.mem_map] at hdl
      obtain ⟨j2, _, hj2⟩ := hdl
      have hyy : y2 = y := congrArg Prod.fst hj2
      exact hy (hyy ▸ hy2)

/-- C6: on a directory of per-year tables — standard RawYearTable headers,
a parseable 4-digit year in every file name, pairwise-distinct years —
`process_data` succeeds and the canonical series it produces has
pairwise-distinct first-of-month date keys. -/
theorem claim_C6_dates_unique (files : List (String × RawDF))
    (hshape : ∀ p ∈ files, (p.2).header = stdHeader)
    (hsome : ∀ p ∈ files, (extractYear p.1).isSome)
    (hnodup : (files.map (fun p => extractYear p.1)).Nodup) :
    ∃ out, process_data edge_case_rain edge_case_temp files = Except.ok out ∧
      (out.map (fun r => r.date)).Nodup := by
  obtain ⟨bs, hpf, hflat⟩ := processFiles_std files hshape hsome
  refine ⟨sortByDate bs.flatten, ?_, ?_⟩
  · unfold process_data
    rw [hpf]
  · have hperm : List.Perm ((sortByDate bs.flatten).map (fun r => r.date))
        (bs.flatten.map (fun r => r.date)) :=
      (sortByDate_perm bs.flatten).map _
    rw [List.Perm.nodup_iff hperm, hflat]
    apply datesNodup
    have heq : files.map (fun p => (extractYear p.1).getD 0)
        = (files.map (fun p => extractYear p.1)).map (fun o => o.getD 0) := by
      rw [List.map_map]
      rfl
    rw [heq]
    refine List.Nodup.map_on ?_ hnodup
    intro x hx y2 hy2 hxy
    obtain ⟨p, hp, rfl⟩ := List.mem_map.1 hx
    obtain ⟨q, hq, rfl⟩ := List.mem_map.1 hy2
    obtain ⟨a, ha⟩ := Option.isSome_iff_exists.1 (hsome p hp)
    obtain ⟨b, hb⟩ := Option.isSome_iff_exists.1 (hsome q hq)
    rw [ha, hb] at hxy ⊢
    simpa using hxy

/-- C6, witness: the one-file directory containing `ex2023`. -/
theorem claim_C6_witness :
    ∃ out, process_data edge_case_rain edge_case_temp
        [("2023Precip.xlsx", ex2023)] = Except.ok out ∧
      (out.map (fun r => r.date)).Nodup :=
  claim_C6_dates_unique [("2023Precip.xlsx", ex2023)] (by decide) (by decide)
    (by decide)
